import Mathlib

/-!
Shallow embedding of the ACME account registration resource
(`src/acme/resource_acme_registration.go`) and proofs of its specified
properties.

External collaborators (the lego ACME client library and the helper
functions `expandACMEClient` / `saveACMERegistration`, which live outside
the source unit under study) are modelled as explicit environment
parameters: each operation takes a record of the outcomes of its external
calls and computes the resulting Terraform state and diagnostics, exactly
following the branch structure of the Go source.
-/

namespace Acme

/-- ACME problem document (`acme.ProblemDetails` from the lego library, as
used by `regGone`): HTTP status plus the problem type URN. -/
structure ProblemDetails where
  httpStatus : Int
  type : String
  detail : String
deriving Repr, DecidableEq

/-- A Go `error` value as the resource sees it: it either wraps a structured
ACME problem document (so that `errors.As(err, &e)` with
`e : *acme.ProblemDetails` succeeds) or it is any other error (network
failure, malformed response, ...), carrying only a message. -/
inductive GoError where
  | problem (p : ProblemDetails)
  | other (msg : String)
deriving Repr, DecidableEq

/-- `errors.As(err, &e)` for `*acme.ProblemDetails`: succeeds exactly when
the error chain carries a structured problem document. -/
def asProblemDetails : GoError → Option ProblemDetails
  | .problem p => some p
  | .other _ => none

/-- Embedding of `regGone` (src/acme/resource_acme_registration.go:119-140):
classifies a CA error as "account gone" exactly when it carries a problem
document with HTTP status 400 and type
`urn:ietf:params:acme:error:accountDoesNotExist`, or HTTP status 403 and
type `urn:ietf:params:acme:error:unauthorized`. -/
def regGone (err : GoError) : Bool :=
  match asProblemDetails err with
  | none => false
  | some e =>
    if e.httpStatus == 400 && e.type == "urn:ietf:params:acme:error:accountDoesNotExist" then
      true
    else if e.httpStatus == 403 && e.type == "urn:ietf:params:acme:error:unauthorized" then
      true
    else
      false

/-- Claim C1: the error classification function classifies a CA error as
"account gone" if and only if the error carries a structured ACME problem
document whose HTTP status is 400 and type is exactly
`urn:ietf:params:acme:error:accountDoesNotExist`, or whose HTTP status is
403 and type is exactly `urn:ietf:params:acme:error:unauthorized`; every
other error — any other status/type combination, or any error with no
structured problem document at all — is classified as a real/Fatal error
(`regGone` returns `false`). -/
theorem regGone_iff (err : GoError) :
    regGone err = true ↔
      ∃ p, asProblemDetails err = some p ∧
        ((p.httpStatus = 400 ∧ p.type = "urn:ietf:params:acme:error:accountDoesNotExist") ∨
         (p.httpStatus = 403 ∧ p.type = "urn:ietf:params:acme:error:unauthorized")) := by
  cases err with
  | other m => simp [regGone, asProblemDetails]
  | problem p =>
    simp only [regGone, asProblemDetails, Option.some.injEq]
    constructor
    · intro h
      refine ⟨p, rfl, ?_⟩
      by_cases h1 : p.httpStatus == 400 && p.type == "urn:ietf:params:acme:error:accountDoesNotExist"
      · left
        simpa using h1
      · rw [if_neg h1] at h
        by_cases h2 : p.httpStatus == 403 && p.type == "urn:ietf:params:acme:error:unauthorized"
        · right
          simpa using h2
        · rw [if_neg h2] at h
          exact absurd h (by simp)
    · rintro ⟨q, hq, hcase⟩
      cases hq
      rcases hcase with ⟨hs, ht⟩ | ⟨hs, ht⟩
      · rw [if_pos (by simp [hs, ht])]
      · by_cases h1 : p.httpStatus == 400 && p.type == "urn:ietf:params:acme:error:accountDoesNotExist"
        · rw [if_pos h1]
        · rw [if_neg h1, if_pos (by simp [hs, ht])]

/-- A dynamic Go `interface\x7b\x7d` value, as handled by the unchecked type
assertions in the create path. Only the shapes that occur there are needed:
strings, slices, string-keyed maps, and the nil interface (which a Go map
lookup yields for a missing key). -/
inductive GoValue where
  | nil
  | str (s : String)
  | list (xs : List GoValue)
  | objMap (m : List (String × GoValue))

/-- Go type assertion `.([]interface\x7b\x7d)`: succeeds only on a slice. -/
def GoValue.asList : GoValue → Option (List GoValue)
  | .list xs => some xs
  | _ => none

/-- Go type assertion `.(map[string]interface\x7b\x7d)`: succeeds only on a map. -/
def GoValue.asMap : GoValue → Option (List (String × GoValue))
  | .objMap m => some m
  | _ => none

/-- Go type assertion `.(string)`: succeeds only on a string. -/
def GoValue.asString : GoValue → Option String
  | .str s => some s
  | _ => none

/-- Go map indexing `m[k]`: a missing key yields the zero value (nil
interface), never a fault. -/
def mapIndex (m : List (String × GoValue)) (k : String) : GoValue :=
  match m.find? (fun kv => kv.1 == k) with
  | some kv => kv.2
  | none => .nil

/-- Go slice indexing `xs[0]`: faults (returns `none`) on an empty slice. -/
def listIndex0 (xs : List GoValue) : Option GoValue := xs.head?

/-- The access chain
`v.([]interface\x7b\x7d)[0].(map[string]interface\x7b\x7d)["key_id"].(string)`
from the create path (src/acme/resource_acme_registration.go:76); `none`
models a Go runtime panic from a failed assertion or index. -/
def eabKeyID (v : GoValue) : Option String := do
  let xs ← v.asList
  let x0 ← listIndex0 xs
  let m ← x0.asMap
  (mapIndex m "key_id").asString

/-- The access chain for `"hmac_base64"` from the create path
(src/acme/resource_acme_registration.go:77). -/
def eabHmac (v : GoValue) : Option String := do
  let xs ← v.asList
  let x0 ← listIndex0 xs
  let m ← x0.asMap
  (mapIndex m "hmac_base64").asString

/-- Whether a dynamic value is a string (so that `.(string)` succeeds). -/
def GoValue.isStr : GoValue → Bool
  | .str _ => true
  | _ => false

/-- One element of the `external_account_binding` list satisfies the declared
nested schema: it is a resource map whose required `key_id` and
`hmac_base64` entries are strings. -/
def eabElemValid : GoValue → Bool
  | .objMap m => (mapIndex m "key_id").isStr && (mapIndex m "hmac_base64").isStr
  | _ => false

/-- The Terraform state of one `acme_registration` resource
(`*schema.ResourceData`): the resource id (the account URL) plus the
declared fields. `externalAccountBinding` holds the raw dynamic value of
the optional `external_account_binding` list. -/
structure ResourceData where
  id : String
  accountKeyPem : String
  emailAddress : String
  externalAccountBinding : GoValue
  registrationUrl : String

/-- The whole resource state satisfies the declared schema: the
`external_account_binding` value is unset, or a list of at most one
element that satisfies the nested element schema. -/
def dataSchemaValid (d : ResourceData) : Bool :=
  match d.externalAccountBinding with
  | .nil => true
  | .list [] => true
  | .list [x] => eabElemValid x
  | _ => false

/-- `d.GetOk("external_account_binding")`: returns the value with `ok = true`
exactly when the field is set to a non-zero value (for a `TypeList`, a
non-empty list). -/
def getOkEAB (d : ResourceData) : Option GoValue :=
  match d.externalAccountBinding with
  | .nil => none
  | .list [] => none
  | v => some v

/-- `registration.RegisterOptions` for the plain registration path. -/
structure RegisterOptions where
  termsOfServiceAgreed : Bool
deriving Repr, DecidableEq

/-- `registration.RegisterEABOptions` for the EAB registration path. -/
structure RegisterEABOptions where
  termsOfServiceAgreed : Bool
  kid : String
  hmacEncoded : String
deriving Repr, DecidableEq

/-- `registration.Resource` as returned by the CA: the account URL (`URI`)
and the account status reported in the body. -/
structure RegistrationResource where
  uri : String
  status : String
deriving Repr, DecidableEq

/-- The user value returned by `expandACMEClient` with `loadReg = true`:
carries the registration fetched from the CA for the bound account key. -/
structure AcmeUser where
  registration : RegistrationResource
deriving Repr, DecidableEq

/-- The authenticated ACME client returned by `expandACMEClient`, modelled by
the outcomes of the CA calls the resource makes through it. The
registration outcomes are functions of the submitted options, so the
proofs can observe exactly which options the code passes. -/
structure Client where
  registerEABResult : RegisterEABOptions → Except GoError RegistrationResource
  registerResult : RegisterOptions → Except GoError RegistrationResource
  deleteRegistrationResult : Option GoError

/-- `diag.Diagnostics` as produced by this resource: `ok` is the nil
diagnostics (success); `fromErr e` is `diag.FromErr(e)` for a non-nil
error. -/
inductive Diagnostics where
  | ok
  | fromErr (e : GoError)
deriving Repr, DecidableEq

/-- Environment of one read invocation: the outcome of
`expandACMEClient(d, meta, true)`. -/
structure ReadEnv where
  expandACMEClient : Except GoError AcmeUser

/-- Modelled from the spec: `saveACMERegistration` is not part of the source
unit under study. Per the spec, on a successful refresh the refreshed
record is persisted for the caller: `registration_url` is the derived,
read-only field set from the CA registration, and no error is produced. -/
def saveACMERegistration (d : ResourceData) (reg : RegistrationResource) :
    ResourceData × Option GoError :=
  ({ d with registrationUrl := reg.uri }, none)

/-- Embedding of `resourceACMERegistrationRead`
(src/acme/resource_acme_registration.go:95-108): on an expand error that
`regGone` classifies, clear the id and succeed; on any other error,
surface it; on success, save the registration. -/
def resourceACMERegistrationRead (env : ReadEnv) (d : ResourceData) :
    ResourceData × Diagnostics :=
  match env.expandACMEClient with
  | .error err =>
    if regGone err then
      ({ d with id := "" }, .ok)
    else
      (d, .fromErr err)
  | .ok user =>
    match saveACMERegistration d user.registration with
    | (dSaved, none) => (dSaved, .ok)
    | (dSaved, some err) => (dSaved, .fromErr err)

/-- Environment of one delete invocation: the outcome of
`expandACMEClient(d, meta, true)`. -/
structure DeleteEnv where
  expandACMEClient : Except GoError Client

/-- Embedding of `resourceACMERegistrationDelete`
(src/acme/resource_acme_registration.go:110-117): surfaces the expand
error, otherwise surfaces the outcome of `DeleteRegistration()`. No
account-gone classification is applied on this path. -/
def resourceACMERegistrationDelete (env : DeleteEnv) (d : ResourceData) :
    ResourceData × Diagnostics :=
  match env.expandACMEClient with
  | .error err => (d, .fromErr err)
  | .ok client =>
    match client.deleteRegistrationResult with
    | none => (d, .ok)
    | some err => (d, .fromErr err)

/-- Trace of the registration call the create path issued. -/
inductive RegCall where
  | eab (opts : RegisterEABOptions)
  | plain (opts : RegisterOptions)
deriving Repr, DecidableEq

/-- Outcome of one create invocation: a Go runtime panic (from a failed
unchecked type assertion in the EAB path), or the final state, the
diagnostics, and the list of registration calls issued. -/
inductive CreateResult where
  | panicked
  | result (d : ResourceData) (diags : Diagnostics) (calls : List RegCall)

/-- Environment of one create invocation: the outcome of
`expandACMEClient(d, meta, false)`, plus the environment of the read the
create performs after a successful registration. -/
structure CreateEnv where
  expandACMEClient : Except GoError Client
  readEnv : ReadEnv

/-- Embedding of `resourceACMERegistrationCreate`
(src/acme/resource_acme_registration.go:64-93): build the client; if
`external_account_binding` is present, register with EAB (terms flag
true, key id and HMAC read through unchecked type assertions), otherwise
register plainly (terms flag true); surface any error; on success set the
id to the returned URI and run the read. -/
def resourceACMERegistrationCreate (env : CreateEnv) (d : ResourceData) :
    CreateResult :=
  match env.expandACMEClient with
  | .error err => .result d (.fromErr err) []
  | .ok client =>
    match getOkEAB d with
    | some v =>
      match eabKeyID v, eabHmac v with
      | some kid, some hmac =>
        let opts : RegisterEABOptions :=
          { termsOfServiceAgreed := true, kid := kid, hmacEncoded := hmac }
        (match client.registerEABResult opts with
         | .error err => .result d (.fromErr err) [.eab opts]
         | .ok reg =>
           let dSet := { d with id := reg.uri }
           let rd := resourceACMERegistrationRead env.readEnv dSet
           .result rd.1 rd.2 [.eab opts])
      | _, _ => .panicked
    | none =>
      let opts : RegisterOptions := { termsOfServiceAgreed := true }
      match client.registerResult opts with
      | .error err => .result d (.fromErr err) [.plain opts]
      | .ok reg =>
        let dSet := { d with id := reg.uri }
        let rd := resourceACMERegistrationRead env.readEnv dSet
        .result rd.1 rd.2 [.plain opts]

/-- The two Terraform schema value types this resource uses. -/
inductive SchemaType where
  | typeString
  | typeList
deriving Repr, DecidableEq

/-- A field of the nested `external_account_binding` element schema. -/
structure SchemaLeaf where
  type : SchemaType
  required : Bool
  sensitive : Bool
  forceNew : Bool
deriving Repr, DecidableEq

/-- A top-level field of the resource schema. -/
structure SchemaField where
  type : SchemaType
  required : Bool
  optional : Bool
  computed : Bool
  sensitive : Bool
  forceNew : Bool
  maxItems : Nat
  elem : List (String × SchemaLeaf)
deriving Repr, DecidableEq

/-- The resource declaration: which contexts are registered and the schema. -/
structure TfResource where
  hasCreateContext : Bool
  hasReadContext : Bool
  hasUpdateContext : Bool
  hasDeleteContext : Bool
  schema : List (String × SchemaField)
deriving Repr, DecidableEq

/-- Embedding of `resourceACMERegistration`
(src/acme/resource_acme_registration.go:17-62): create/read/delete
contexts only (no update context is registered), and the declared schema
with its `ForceNew`, `Required`, `Sensitive`, `Computed` and `MaxItems`
settings. -/
def resourceACMERegistration : TfResource :=
  { hasCreateContext := true
    hasReadContext := true
    hasUpdateContext := false
    hasDeleteContext := true
    schema :=
      [ ("account_key_pem",
          { type := .typeString, required := true, optional := false,
            computed := false, sensitive := true, forceNew := true,
            maxItems := 0, elem := [] }),
        ("email_address",
          { type := .typeString, required := true, optional := false,
            computed := false, sensitive := false, forceNew := true,
            maxItems := 0, elem := [] }),
        ("external_account_binding",
          { type := .typeList, required := false, optional := true,
            computed := false, sensitive := false, forceNew := true,
            maxItems := 1,
            elem :=
              [ ("key_id",
                  { type := .typeString, required := true, sensitive := true,
                    forceNew := true }),
                ("hmac_base64",
                  { type := .typeString, required := true, sensitive := true,
                    forceNew := true }) ] }),
        ("registration_url",
          { type := .typeString, required := false, optional := false,
            computed := true, sensitive := false, forceNew := false,
            maxItems := 0, elem := [] }) ] }

/-- Look up a top-level field of a resource schema. -/
def schemaField (r : TfResource) (name : String) : Option SchemaField :=
  match r.schema.find? (fun kv => kv.1 == name) with
  | some kv => some kv.2
  | none => none

/-- Look up a field of the nested element schema of a top-level field. -/
def schemaElemField (r : TfResource) (name sub : String) : Option SchemaLeaf :=
  match schemaField r name with
  | none => none
  | some f =>
    match f.elem.find? (fun kv => kv.1 == sub) with
    | some kv => some kv.2
    | none => none

/-! Concrete fixtures used by witnesses and counterexamples. -/

/-- The 403 / `unauthorized` problem: gone-classified per the table. -/
def goneErr403 : GoError :=
  .problem { httpStatus := 403, type := "urn:ietf:params:acme:error:unauthorized",
             detail := "account deactivated" }

/-- The 400 / `accountDoesNotExist` problem: gone-classified per the table. -/
def goneErr400 : GoError :=
  .problem { httpStatus := 400,
             type := "urn:ietf:params:acme:error:accountDoesNotExist",
             detail := "no account bound to this key" }

/-- A transport failure carrying no problem document: never gone-classified. -/
def netErr : GoError := .other "connection refused"

/-- A well-formed state with no EAB binding. -/
def sampleData : ResourceData :=
  { id := "https://ca.example/acct/1", accountKeyPem := "keyA",
    emailAddress := "a@example.com", externalAccountBinding := .nil,
    registrationUrl := "" }

/-- A client whose deactivation call reports the account already gone. -/
def clientGoneOnDelete : Client :=
  { registerEABResult := fun _ => .error netErr
    registerResult := fun _ => .error netErr
    deleteRegistrationResult := some goneErr403 }

/-- Delete environment in which the CA answers the deactivation with the
403 / `unauthorized` problem (the account is already gone). -/
def deleteEnvGone : DeleteEnv := { expandACMEClient := .ok clientGoneOnDelete }

/-- Claim C2 counterexample: a delete whose deactivation call the CA answers
with the gone-classified 403 / `unauthorized` problem returns that error
as a Fatal diagnostic, not success — the delete path applies no
account-gone classification, so the claimed idempotency fails. -/
theorem delete_gone_is_fatal_cex :
    regGone goneErr403 = true ∧
    resourceACMERegistrationDelete deleteEnvGone sampleData =
      (sampleData, .fromErr goneErr403) ∧
    (resourceACMERegistrationDelete deleteEnvGone sampleData).2 ≠ Diagnostics.ok := by
  refine ⟨by decide, rfl, ?_⟩
  simp [resourceACMERegistrationDelete, deleteEnvGone, clientGoneOnDelete]

/-- Claim C2 (amended): the delete path applies no account-gone
classification: every error of the deactivation call — in particular one
classified as "account gone", such as HTTP 403 with type
`urn:ietf:params:acme:error:unauthorized` — is surfaced as a Fatal
diagnostic and never reported as success, so a second delete on an
already-gone account reports an error rather than success. -/
theorem delete_surfaces_gone_error (env : DeleteEnv) (d : ResourceData)
    (err : GoError) (hg : regGone err = true) :
    (env.expandACMEClient = .error err →
       resourceACMERegistrationDelete env d = (d, .fromErr err)) ∧
    (∀ client, env.expandACMEClient = .ok client →
       client.deleteRegistrationResult = some err →
       resourceACMERegistrationDelete env d = (d, .fromErr err)) ∧
    Diagnostics.fromErr err ≠ Diagnostics.ok := by
  refine ⟨fun hc => ?_, fun client hc hd => ?_, by simp⟩
  · simp [resourceACMERegistrationDelete, hc]
  · simp [resourceACMERegistrationDelete, hc, hd]

/-- Witness for the amended C2 theorem at a concrete environment. -/
theorem delete_surfaces_gone_error_witness :
    resourceACMERegistrationDelete deleteEnvGone sampleData =
      (sampleData, .fromErr goneErr403) :=
  (delete_surfaces_gone_error deleteEnvGone sampleData goneErr403
    (by decide)).2.1 clientGoneOnDelete rfl rfl

/-- Claim C3: a read whose client construction fails with an error classified
as "account gone" clears the persisted id (sets it to the empty string)
and returns nil diagnostics — an Absent outcome reported as success, not
as a raised error. -/
theorem read_gone_clears_id (env : ReadEnv) (d : ResourceData) (err : GoError)
    (he : env.expandACMEClient = .error err)
    (hg : regGone err = true) :
    resourceACMERegistrationRead env d = ({ d with id := "" }, Diagnostics.ok) := by
  simp [resourceACMERegistrationRead, he, hg]

/-- Read environment in which the CA lookup fails with the gone-classified
400 / `accountDoesNotExist` problem. -/
def readEnvGone : ReadEnv := { expandACMEClient := .error goneErr400 }

/-- Witness for the C3 theorem at a concrete environment. -/
theorem read_gone_clears_id_witness :
    resourceACMERegistrationRead readEnvGone sampleData =
      ({ sampleData with id := "" }, Diagnostics.ok) :=
  read_gone_clears_id readEnvGone sampleData goneErr400 rfl (by decide)

/-- Claim C4: a read whose client construction fails with an error NOT
classified as "account gone" surfaces that error unchanged and leaves the
state untouched: the id is not cleared and no field is written. -/
theorem read_real_error_surfaced (env : ReadEnv) (d : ResourceData) (err : GoError)
    (he : env.expandACMEClient = .error err)
    (hg : regGone err = false) :
    resourceACMERegistrationRead env d = (d, Diagnostics.fromErr err) := by
  simp [resourceACMERegistrationRead, he, hg]

/-- Read environment in which the CA lookup fails with a transport error. -/
def readEnvNet : ReadEnv := { expandACMEClient := .error netErr }

/-- Witness for the C4 theorem at a concrete environment. -/
theorem read_real_error_surfaced_witness :
    resourceACMERegistrationRead readEnvNet sampleData =
      (sampleData, Diagnostics.fromErr netErr) :=
  read_real_error_surfaced readEnvNet sampleData netErr rfl (by decide)

/-- The registration calls a create outcome issued (none if it panicked
before reaching a CA call). -/
def createCalls : CreateResult → List RegCall
  | .panicked => []
  | .result _ _ calls => calls

/-- A string-shaped dynamic value yields a string under `.(string)`. -/
theorem isStr_asString_isSome (v : GoValue) (h : v.isStr = true) :
    v.asString.isSome = true := by
  cases v <;> simp [GoValue.isStr, GoValue.asString] at h ⊢

/-- Under the declared schema, the unchecked access chains of the EAB create
path both succeed on the value `GetOk` returned. -/
theorem eab_access_ok (d : ResourceData) (v : GoValue)
    (hs : dataSchemaValid d = true) (hv : getOkEAB d = some v) :
    (eabKeyID v).isSome = true ∧ (eabHmac v).isSome = true := by
  unfold dataSchemaValid at hs
  unfold getOkEAB at hv
  cases hb : d.externalAccountBinding with
  | nil => rw [hb] at hv; exact absurd hv (by simp)
  | str s => rw [hb] at hs; exact absurd hs (by simp)
  | objMap m => rw [hb] at hs; exact absurd hs (by simp)
  | list xs =>
    rw [hb] at hs hv
    match xs, hs, hv with
    | [], _, hv => exact absurd hv (by simp)
    | [x], hs, hv =>
      have hvx : v = GoValue.list [x] := by
        simpa using hv.symm
      subst hvx
      have hex : eabElemValid x = true := by simpa using hs
      cases x with
      | nil => exact absurd hex (by simp [eabElemValid])
      | str s => exact absurd hex (by simp [eabElemValid])
      | list ys => exact absurd hex (by simp [eabElemValid])
      | objMap m =>
        unfold eabElemValid at hex
        rw [Bool.and_eq_true] at hex
        obtain ⟨hk, hh⟩ := hex
        constructor
        · have := isStr_asString_isSome _ hk
          simpa [eabKeyID, GoValue.asList, listIndex0, GoValue.asMap,
                 Option.bind] using this
        · have := isStr_asString_isSome _ hh
          simpa [eabHmac, GoValue.asList, listIndex0, GoValue.asMap,
                 Option.bind] using this
    | a :: b :: rest, hs, _ => exact absurd hs (by simp)

/-- Claim C5: on every create invocation (with the client built), exactly one
of the two registration paths executes, selected solely by presence of
the `external_account_binding` value: if present, the EAB registration is
issued with the key id and HMAC secret read from the binding; if absent,
the plain registration is issued; and in both paths the
terms-of-service-agreement flag is set to true. -/
theorem create_single_path (env : CreateEnv) (d : ResourceData) (client : Client)
    (hc : env.expandACMEClient = .ok client)
    (hs : dataSchemaValid d = true) :
    (∃ v kid hmac,
       getOkEAB d = some v ∧ eabKeyID v = some kid ∧ eabHmac v = some hmac ∧
       createCalls (resourceACMERegistrationCreate env d) =
         [RegCall.eab { termsOfServiceAgreed := true, kid := kid,
                        hmacEncoded := hmac }]) ∨
    (getOkEAB d = none ∧
       createCalls (resourceACMERegistrationCreate env d) =
         [RegCall.plain { termsOfServiceAgreed := true }]) := by
  cases hv : getOkEAB d with
  | none =>
    right
    refine ⟨rfl, ?_⟩
    cases hr : client.registerResult { termsOfServiceAgreed := true } <;>
      simp [resourceACMERegistrationCreate, hc, hv, hr, createCalls]
  | some v =>
    left
    obtain ⟨hk, hh⟩ := eab_access_ok d v hs hv
    obtain ⟨kid, hkid⟩ := Option.isSome_iff_exists.mp hk
    obtain ⟨hmac, hhm⟩ := Option.isSome_iff_exists.mp hh
    refine ⟨v, kid, hmac, rfl, hkid, hhm, ?_⟩
    cases hr : client.registerEABResult
        { termsOfServiceAgreed := true, kid := kid, hmacEncoded := hmac } <;>
      simp [resourceACMERegistrationCreate, hc, hv, hkid, hhm, hr, createCalls]

/-- An EAB binding value satisfying the declared schema. -/
def sampleEabValue : GoValue :=
  .list [.objMap [("key_id", .str "K1"), ("hmac_base64", .str "aGVsbG8=")]]

/-- A well-formed state carrying the EAB binding. -/
def sampleDataEab : ResourceData :=
  { id := "", accountKeyPem := "keyB", emailAddress := "b@example.com",
    externalAccountBinding := sampleEabValue, registrationUrl := "" }

/-- The CA registration returned for the plain-path account. -/
def regA : RegistrationResource :=
  { uri := "https://ca.example/acct/1", status := "valid" }

/-- The user obtained when the CA confirms the plain-path account. -/
def userA : AcmeUser := { registration := regA }

/-- A client whose plain registration the CA accepts. -/
def clientOkPlain : Client :=
  { registerEABResult := fun _ => .error netErr
    registerResult := fun _ => .ok regA
    deleteRegistrationResult := none }

/-- Create environment in which the CA accepts the plain registration and
the follow-up read confirms the account. -/
def createEnvOk : CreateEnv :=
  { expandACMEClient := .ok clientOkPlain
    readEnv := { expandACMEClient := .ok userA } }

/-- Witness for the C5 theorem: the plain path at a concrete environment. -/
theorem create_single_path_witness :
    (∃ v kid hmac,
       getOkEAB sampleData = some v ∧ eabKeyID v = some kid ∧
       eabHmac v = some hmac ∧
       createCalls (resourceACMERegistrationCreate createEnvOk sampleData) =
         [RegCall.eab { termsOfServiceAgreed := true, kid := kid,
                        hmacEncoded := hmac }]) ∨
    (getOkEAB sampleData = none ∧
       createCalls (resourceACMERegistrationCreate createEnvOk sampleData) =
         [RegCall.plain { termsOfServiceAgreed := true }]) :=
  create_single_path createEnvOk sampleData clientOkPlain rfl (by decide)

/-- Claim C9: under the declared schema (the binding, when present, is a
one-element list whose `key_id` and `hmac_base64` entries are required
strings), the unchecked list-index-0 and string type assertions of the
EAB create path never fault: both access chains succeed on the value
`GetOk` returned, and no environment can drive the create embedding into
its panic branch. -/
theorem create_eab_access_safe (d : ResourceData)
    (hs : dataSchemaValid d = true) :
    (∀ v, getOkEAB d = some v →
       (eabKeyID v).isSome = true ∧ (eabHmac v).isSome = true) ∧
    (∀ env, resourceACMERegistrationCreate env d ≠ CreateResult.panicked) := by
  refine ⟨fun v hv => eab_access_ok d v hs hv, fun env => ?_⟩
  cases hc : env.expandACMEClient with
  | error err => simp [resourceACMERegistrationCreate, hc]
  | ok client =>
    cases hv : getOkEAB d with
    | none =>
      cases hr : client.registerResult { termsOfServiceAgreed := true } <;>
        simp [resourceACMERegistrationCreate, hc, hv, hr]
    | some v =>
      obtain ⟨hk, hh⟩ := eab_access_ok d v hs hv
      obtain ⟨kid, hkid⟩ := Option.isSome_iff_exists.mp hk
      obtain ⟨hmac, hhm⟩ := Option.isSome_iff_exists.mp hh
      cases hr : client.registerEABResult
          { termsOfServiceAgreed := true, kid := kid, hmacEncoded := hmac } <;>
        simp [resourceACMERegistrationCreate, hc, hv, hkid, hhm, hr]

/-- Witness for the C9 theorem at the concrete EAB-carrying state. -/
theorem create_eab_access_safe_witness :
    (∀ v, getOkEAB sampleDataEab = some v →
       (eabKeyID v).isSome = true ∧ (eabHmac v).isSome = true) ∧
    (∀ env, resourceACMERegistrationCreate env sampleDataEab ≠
       CreateResult.panicked) :=
  create_eab_access_safe sampleDataEab (by decide)

/-- Claim C6: create is atomic with respect to local state: the id
(accountURL) is assigned only after the CA registration call succeeds,
and on any creation failure — client construction error, EAB registration
rejection, or plain registration rejection — the error is surfaced
verbatim, at most one registration call was issued (no retry), and the
state is returned unmodified, so a record that had no id still has
none. -/
theorem create_failure_atomic (env : CreateEnv) (d : ResourceData)
    (err : GoError) :
    (env.expandACMEClient = .error err →
       resourceACMERegistrationCreate env d =
         .result d (.fromErr err) []) ∧
    (∀ client v kid hmac,
       env.expandACMEClient = .ok client →
       getOkEAB d = some v → eabKeyID v = some kid → eabHmac v = some hmac →
       client.registerEABResult
           { termsOfServiceAgreed := true, kid := kid, hmacEncoded := hmac } =
         .error err →
       resourceACMERegistrationCreate env d =
         .result d (.fromErr err)
           [.eab { termsOfServiceAgreed := true, kid := kid,
                   hmacEncoded := hmac }]) ∧
    (∀ client,
       env.expandACMEClient = .ok client →
       getOkEAB d = none →
       client.registerResult { termsOfServiceAgreed := true } = .error err →
       resourceACMERegistrationCreate env d =
         .result d (.fromErr err) [.plain { termsOfServiceAgreed := true }]) := by
  refine ⟨fun hc => ?_, fun client v kid hmac hc hv hkid hhm hr => ?_,
    fun client hc hv hr => ?_⟩
  · simp [resourceACMERegistrationCreate, hc]
  · simp [resourceACMERegistrationCreate, hc, hv, hkid, hhm, hr]
  · simp [resourceACMERegistrationCreate, hc, hv, hr]

/-- Create environment in which the client construction itself fails with a
transport error. -/
def createEnvErr : CreateEnv :=
  { expandACMEClient := .error netErr, readEnv := readEnvNet }

/-- Witness for the C6 theorem: a failed client construction at a concrete
environment leaves the state untouched with no registration call. -/
theorem create_failure_atomic_witness :
    resourceACMERegistrationCreate createEnvErr sampleData =
      .result sampleData (.fromErr netErr) [] :=
  (create_failure_atomic createEnvErr sampleData netErr).1 rfl

/-- Claim C10: the account-gone classification is never applied on the create
path: every create-path error — even one `regGone` classifies as "account
gone" — is returned as a failure diagnostic carrying that error, never
converted into a success/Absent outcome, and the state (in particular the
id) is returned unmodified, never cleared. -/
theorem create_never_absent (env : CreateEnv) (d : ResourceData)
    (err : GoError) (hg : regGone err = true) :
    (env.expandACMEClient = .error err →
       resourceACMERegistrationCreate env d =
         .result d (.fromErr err) [] ∧
       Diagnostics.fromErr err ≠ Diagnostics.ok) ∧
    (∀ client v kid hmac,
       env.expandACMEClient = .ok client →
       getOkEAB d = some v → eabKeyID v = some kid → eabHmac v = some hmac →
       client.registerEABResult
           { termsOfServiceAgreed := true, kid := kid, hmacEncoded := hmac } =
         .error err →
       resourceACMERegistrationCreate env d =
         .result d (.fromErr err)
           [.eab { termsOfServiceAgreed := true, kid := kid,
                   hmacEncoded := hmac }] ∧
       Diagnostics.fromErr err ≠ Diagnostics.ok) ∧
    (∀ client,
       env.expandACMEClient = .ok client →
       getOkEAB d = none →
       client.registerResult { termsOfServiceAgreed := true } = .error err →
       resourceACMERegistrationCreate env d =
         .result d (.fromErr err) [.plain { termsOfServiceAgreed := true }] ∧
       Diagnostics.fromErr err ≠ Diagnostics.ok) := by
  refine ⟨fun hc => ⟨?_, by simp⟩,
    fun client v kid hmac hc hv hkid hhm hr => ⟨?_, by simp⟩,
    fun client hc hv hr => ⟨?_, by simp⟩⟩
  · simp [resourceACMERegistrationCreate, hc]
  · simp [resourceACMERegistrationCreate, hc, hv, hkid, hhm, hr]
  · simp [resourceACMERegistrationCreate, hc, hv, hr]

/-- Create environment in which the client construction fails with the
gone-classified 400 / `accountDoesNotExist` problem. -/
def createEnvGone : CreateEnv :=
  { expandACMEClient := .error goneErr400, readEnv := readEnvNet }

/-- Witness for the C10 theorem: a gone-classified error during create is
surfaced as a failure at a concrete environment. -/
theorem create_never_absent_witness :
    resourceACMERegistrationCreate createEnvGone sampleData =
      .result sampleData (.fromErr goneErr400) [] ∧
    Diagnostics.fromErr goneErr400 ≠ Diagnostics.ok :=
  (create_never_absent createEnvGone sampleData goneErr400 (by decide)).1 rfl

/-- Claim C8: for a record with no EAB binding, against a CA that accepts the
plain registration and then confirms the account as valid, create followed
immediately by refresh succeeds: create issues exactly the plain call,
sets the id to the CA-returned URL, and the subsequent refresh returns
success without changing the id — the accountURL is assigned once at
creation and never recomputed by a successful refresh; the record the
refresh obtained has status valid. -/
theorem create_then_refresh_stable (env : CreateEnv) (d : ResourceData)
    (client : Client) (reg : RegistrationResource) (user : AcmeUser)
    (hnoEab : getOkEAB d = none)
    (hc : env.expandACMEClient = .ok client)
    (hreg : client.registerResult { termsOfServiceAgreed := true } = .ok reg)
    (hread : env.readEnv.expandACMEClient = .ok user)
    (huri : user.registration.uri = reg.uri)
    (hstatus : user.registration.status = "valid") :
    ∃ dFinal,
      resourceACMERegistrationCreate env d =
        .result dFinal Diagnostics.ok [.plain { termsOfServiceAgreed := true }] ∧
      dFinal.id = reg.uri ∧
      dFinal.registrationUrl = reg.uri ∧
      (resourceACMERegistrationRead env.readEnv dFinal).2 = Diagnostics.ok ∧
      (resourceACMERegistrationRead env.readEnv dFinal).1.id = reg.uri ∧
      user.registration.status = "valid" := by
  refine ⟨{ { d with id := reg.uri } with registrationUrl := user.registration.uri },
    ?_, rfl, huri, ?_, ?_, hstatus⟩
  · simp [resourceACMERegistrationCreate, hc, hnoEab, hreg,
      resourceACMERegistrationRead, hread, saveACMERegistration]
  · simp [resourceACMERegistrationRead, hread, saveACMERegistration]
  · simp [resourceACMERegistrationRead, hread, saveACMERegistration]

/-- Witness for the C8 theorem at a concrete accepting CA. -/
theorem create_then_refresh_stable_witness :
    ∃ dFinal,
      resourceACMERegistrationCreate createEnvOk sampleData =
        .result dFinal Diagnostics.ok [.plain { termsOfServiceAgreed := true }] ∧
      dFinal.id = regA.uri ∧
      dFinal.registrationUrl = regA.uri ∧
      (resourceACMERegistrationRead createEnvOk.readEnv dFinal).2 =
        Diagnostics.ok ∧
      (resourceACMERegistrationRead createEnvOk.readEnv dFinal).1.id =
        regA.uri ∧
      userA.registration.status = "valid" :=
  create_then_refresh_stable createEnvOk sampleData clientOkPlain regA userA
    rfl rfl rfl rfl rfl rfl

/-- Claim C7: the account key, email and EAB binding fields are write-once:
the resource registers no update context, each of these fields (and the
nested `key_id` / `hmac_base64` sub-fields) is declared `ForceNew`, so a
change forces delete-then-recreate; and neither the read nor the delete
operation ever writes any of these fields. -/
theorem registration_fields_write_once :
    resourceACMERegistration.hasUpdateContext = false ∧
    (schemaField resourceACMERegistration "account_key_pem").map
        SchemaField.forceNew = some true ∧
    (schemaField resourceACMERegistration "email_address").map
        SchemaField.forceNew = some true ∧
    (schemaField resourceACMERegistration "external_account_binding").map
        SchemaField.forceNew = some true ∧
    (schemaElemField resourceACMERegistration "external_account_binding"
        "key_id").map SchemaLeaf.forceNew = some true ∧
    (schemaElemField resourceACMERegistration "external_account_binding"
        "hmac_base64").map SchemaLeaf.forceNew = some true ∧
    (∀ env d,
       (resourceACMERegistrationRead env d).1.accountKeyPem =
         d.accountKeyPem ∧
       (resourceACMERegistrationRead env d).1.emailAddress =
         d.emailAddress ∧
       (resourceACMERegistrationRead env d).1.externalAccountBinding =
         d.externalAccountBinding) ∧
    (∀ env d, (resourceACMERegistrationDelete env d).1 = d) := by
  refine ⟨rfl, rfl, rfl, rfl, rfl, rfl, fun env d => ?_, fun env d => ?_⟩
  · cases he : env.expandACMEClient with
    | error err =>
      by_cases hg : regGone err = true
      · simp [resourceACMERegistrationRead, he, hg]
      · simp [resourceACMERegistrationRead, he, hg]
    | ok user => simp [resourceACMERegistrationRead, he, saveACMERegistration]
  · cases he : env.expandACMEClient with
    | error err => simp [resourceACMERegistrationDelete, he]
    | ok client =>
      cases hd : client.deleteRegistrationResult <;>
        simp [resourceACMERegistrationDelete, he, hd]

end Acme
